import Mathlib

/- Verification of the places-search filter (`filter_places`) and the
   place-update handler (`edit_place`) of the HBnB REST API, from
   api/v1/views/places.py.  Entities and the storage collaborator are
   embedded as plain inductive data; the endpoint bodies are translated
   statement by statement. -/

namespace HBnB

/-- an Amenity entity; only its identifier matters to the filter. -/
structure Amenity where
  id : String
  deriving DecidableEq, Repr

/-- a Place entity. `amenities` is the object-graph amenity relationship
    (what `place.amenities` yields when `storage_t == 'db'`), while
    `amenity_ids` is the flat identifier list used by the file backend. -/
structure Place where
  id : String
  city_id : String
  amenities : List Amenity
  amenity_ids : List String
  deriving DecidableEq, Repr

/-- a City entity, belonging to a State by reference. -/
structure City where
  id : String
  state_id : String
  deriving DecidableEq, Repr

/-- a State entity. -/
structure State where
  id : String
  deriving DecidableEq, Repr

/-- Modelled from the spec: the storage collaborator (external to the core
    source) is a key-value/object store holding the four entity kinds and
    exposing `get(type, id)`, `all(type)` and the object-graph relations
    `state.cities` and `city.places`. -/
structure Storage where
  states : List State
  cities : List City
  places : List Place
  amenities : List Amenity
  deriving DecidableEq, Repr

/-- storage.get('State', i): the State with identifier `i`, if any. -/
def getState (stg : Storage) (i : String) : Option State :=
  stg.states.find? (fun s => s.id == i)

/-- storage.get('City', i): the City with identifier `i`, if any. -/
def getCity (stg : Storage) (i : String) : Option City :=
  stg.cities.find? (fun c => c.id == i)

/-- storage.get('Amenity', i): the Amenity with identifier `i`, if any. -/
def getAmenity (stg : Storage) (i : String) : Option Amenity :=
  stg.amenities.find? (fun a => a.id == i)

/-- Modelled from the spec: the object-graph back-reference `state.cities`
    (the storage collaborator exposes it; the model layer is outside src). -/
def citiesOfState (stg : Storage) (st : State) : List City :=
  stg.cities.filter (fun c => c.state_id == st.id)

/-- Modelled from the spec: the object-graph back-reference `city.places`. -/
def placesOfCity (stg : Storage) (c : City) : List Place :=
  stg.places.filter (fun p => p.city_id == c.id)

/-- places contributed by one entry of the `states` request list: all places
    of all cities of the named State, or nothing when the identifier does not
    resolve (lines 132-137 of places.py). -/
def statePlaces (stg : Storage) (sid : String) : Finset Place :=
  match getState stg sid with
  | some st =>
      (citiesOfState stg st).foldl (fun acc c => acc ∪ (placesOfCity stg c).toFinset) ∅
  | none => ∅

/-- places contributed by one entry of the `cities` request list
    (lines 138-142 of places.py). -/
def cityPlaces (stg : Storage) (cid : String) : Finset Place :=
  match getCity stg cid with
  | some c => (placesOfCity stg c).toFinset
  | none => ∅

/-- the candidate set built by lines 129-142 of places.py.  The guard
    `fields == \x7b\x7d or (states == [] and cities == [])` collapses to its
    second disjunct, since an empty request body also yields empty `states`
    and `cities` lists. -/
def candidatePlaces (stg : Storage) (states cities : List String) : Finset Place :=
  let places0 : Finset Place :=
    if states = [] ∧ cities = [] then stg.places.toFinset else ∅
  let places1 := states.foldl (fun acc sid => acc ∪ statePlaces stg sid) places0
  cities.foldl (fun acc cid => acc ∪ cityPlaces stg cid) places1

/-- lines 144-149 of places.py: `amenities = set(amenities)` followed by the
    loop keeping only the identifiers that resolve to an existing Amenity. -/
def normalizedAmenities (stg : Storage) (amenities : List String) : Finset String :=
  amenities.toFinset.filter (fun a => (getAmenity stg a).isSome)

/-- lines 152-155 of places.py: a candidate's own amenity-identifier set,
    via the object relationship in db mode and the flat list otherwise. -/
def placeAmenityIds (storage_t : String) (p : Place) : Finset String :=
  if storage_t = "db" then (p.amenities.map Amenity.id).toFinset
  else p.amenity_ids.toFinset

/-- the result set of `filter_places` (lines 123-160 of places.py): the
    candidate set, minus — when the `amenities` request list is non-empty —
    the candidates whose amenity-identifier set does not contain every
    normalized requested identifier (`places -= to_remove`). -/
def filterPlaces (stg : Storage) (storage_t : String)
    (states cities amenities : List String) : Finset Place :=
  let places := candidatePlaces stg states cities
  if amenities = [] then places
  else
    let norm := normalizedAmenities stg amenities
    let toRemove := places.filter (fun p => ¬ norm ⊆ placeAmenityIds storage_t p)
    places \ toRemove

/-- Modelled from the spec: the storage state after `filter_places` has run.
    The statement `del place.amenities` (line 158) discards each candidate's
    amenity relationship as a side effect; the Place model class is outside
    src, and the spec describes the effect as discarding the relationship. -/
def filterPlacesStorageAfter (stg : Storage) (storage_t : String)
    (states cities amenities : List String) : Storage :=
  if amenities = [] then stg
  else
    let cand := candidatePlaces stg states cities
    { stg with
        places := stg.places.map (fun p =>
          if p ∈ cand then { p with amenities := [] } else p) }

/- Concrete scenario storage from the spec: State S1 → City C1 with
   Places P1 (amenities A1, A2) and P2 (amenity A1); City C2, whose state
   identifier matches no stored State, with Place P3 (no amenities). -/

def a1 : Amenity := ⟨"A1"⟩

def a2 : Amenity := ⟨"A2"⟩

def p1 : Place := ⟨"P1", "C1", [a1, a2], ["A1", "A2"]⟩

def p2 : Place := ⟨"P2", "C1", [a1], ["A1"]⟩

def p3 : Place := ⟨"P3", "C2", [], []⟩

def c1 : City := ⟨"C1", "S1"⟩

def c2 : City := ⟨"C2", "S2"⟩

def s1 : State := ⟨"S1"⟩

def scenarioStg : Storage := ⟨[s1], [c1, c2], [p1, p2, p3], [a1, a2]⟩

/- Helpers for the unresolvable-identifier claim: a request with every
   identifier that does not resolve to a stored entity removed. -/

/-- the state identifiers of a request that resolve to a stored State. -/
def resolvableStateIds (stg : Storage) (l : List String) : List String :=
  l.filter (fun i => (getState stg i).isSome)

/-- the city identifiers of a request that resolve to a stored City. -/
def resolvableCityIds (stg : Storage) (l : List String) : List String :=
  l.filter (fun i => (getCity stg i).isSome)

/-- the amenity identifiers of a request that resolve to a stored Amenity. -/
def resolvableAmenityIds (stg : Storage) (l : List String) : List String :=
  l.filter (fun i => (getAmenity stg i).isSome)

/- A dynamically-typed model of the request body, for the safety claim:
   the handler reads `request.get_json()` and runs Python operations whose
   success depends on the runtime type of each value. -/

/-- a parsed JSON value. -/
inductive JVal where
  | jnull : JVal
  | jbool : Bool → JVal
  | jnum : Int → JVal
  | jstr : String → JVal
  | jarr : List JVal → JVal
  | jobj : List (String × JVal) → JVal
  deriving Repr

/-- Python `v == []`: true exactly for an empty list. -/
def isEmptyList : JVal → Bool
  | .jarr [] => true
  | _ => false

/-- Python `v == \x7b\x7d`: true exactly for an empty dict. -/
def isEmptyDict : JVal → Bool
  | .jobj [] => true
  | _ => false

/-- Python iteration `for x in v`: lists yield their elements, strings their
    characters, dicts their keys; other values raise TypeError. -/
def pyIter : JVal → Except String (List JVal)
  | .jarr xs => .ok xs
  | .jstr s => .ok (s.toList.map (fun c => .jstr (String.mk [c])))
  | .jobj kvs => .ok (kvs.map (fun kv => .jstr kv.1))
  | _ => .error "TypeError: object is not iterable"

/-- Python hashability, as needed by `set(...)`: lists and dicts are not
    hashable. -/
def pyHashable : JVal → Bool
  | .jarr _ => false
  | .jobj _ => false
  | _ => true

/-- Python `fields.get(key, default)` (lines 126-128): only a dict has the
    `get` method; any other JSON value raises AttributeError. -/
def pyDictGet (fields : JVal) (key : String) (dflt : JVal) : Except String JVal :=
  match fields with
  | .jobj kvs => .ok ((kvs.lookup key).getD dflt)
  | _ => .error "AttributeError: object has no attribute get"

/-- Modelled from the spec: `storage.get('State', id)` with a non-string
    identifier matches no stored entity (the storage engine is outside src;
    the spec gives `get(type, id) -> Entity | absent`). -/
def dynStatePlaces (stg : Storage) (sid : JVal) : Finset Place :=
  match sid with
  | .jstr s => statePlaces stg s
  | _ => ∅

/-- Modelled from the spec: `storage.get('City', id)` with a non-string
    identifier matches no stored entity. -/
def dynCityPlaces (stg : Storage) (cid : JVal) : Finset Place :=
  match cid with
  | .jstr s => cityPlaces stg s
  | _ => ∅

/-- lines 129-142 on dynamically-typed request values: the all-places branch
    guard, then the two identifier loops, each of which needs its value to be
    iterable. -/
def dynLocationFilter (stg : Storage) (fields states cities : JVal) :
    Except String (Finset Place) :=
  let places0 : Finset Place :=
    if isEmptyDict fields || (isEmptyList states && isEmptyList cities)
    then stg.places.toFinset else ∅
  match pyIter states with
  | .error e => .error e
  | .ok stateIds =>
    let places1 := stateIds.foldl (fun acc sid => acc ∪ dynStatePlaces stg sid) places0
    match pyIter cities with
    | .error e => .error e
    | .ok cityIds =>
      .ok (cityIds.foldl (fun acc cid => acc ∪ dynCityPlaces stg cid) places1)

/-- lines 143-159 on a dynamically-typed `amenities` value: skipped when the
    value equals the empty list; otherwise `set(amenities)` iterates the value
    and requires every element hashable, the resolvability loop keeps the
    string identifiers naming stored Amenities, and the subset test prunes
    the candidates. -/
def dynAmenityFilter (stg : Storage) (storage_t : String) (places2 : Finset Place)
    (amenities : JVal) : Except String (Finset Place) :=
  if isEmptyList amenities then .ok places2
  else
    match pyIter amenities with
    | .error e => .error e
    | .ok elems =>
      if elems.all pyHashable then
        let norm : Finset String := elems.foldl (fun acc a =>
          match a with
          | .jstr s => if (getAmenity stg s).isSome then insert s acc else acc
          | _ => acc) ∅
        .ok (places2 \ places2.filter (fun p => ¬ norm ⊆ placeAmenityIds storage_t p))
      else .error "TypeError: unhashable type"

/-- outcome of the `/places_search` handler when it does not raise. -/
inductive SearchResponse where
  | notAJson : SearchResponse
  | results : Finset Place → SearchResponse
  deriving DecidableEq

/-- the whole handler body (lines 123-160) on a request body: `none` stands
    for an unparseable body (and a literal JSON null also leaves
    `request.json` as None), answered with the 400 "Not a JSON" response
    before the filter runs; any other body reaches the filter, which either
    completes with a result set or raises. -/
def filterPlacesDyn (stg : Storage) (storage_t : String) (body : Option JVal) :
    Except String SearchResponse :=
  match body with
  | none => .ok .notAJson
  | some .jnull => .ok .notAJson
  | some fields =>
    match pyDictGet fields "states" (.jarr []), pyDictGet fields "cities" (.jarr []),
        pyDictGet fields "amenities" (.jarr []) with
    | .ok states, .ok cities, .ok amenities =>
      (match dynLocationFilter stg fields states cities with
       | .error e => .error e
       | .ok places2 =>
         match dynAmenityFilter stg storage_t places2 amenities with
         | .error e => .error e
         | .ok res => .ok (.results res))
    | .error e, _, _ => .error e
    | _, .error e, _ => .error e
    | _, _, .error e => .error e

/-- a JSON value that is an array of strings. -/
def isStrArray : JVal → Bool
  | .jarr xs => xs.all (fun x => match x with | .jstr _ => true | _ => false)
  | _ => false

/- Model of the field-update loop of `edit_place` (lines 107-110).  A place
   object is a finite attribute map; `setattr` on an attribute the object
   already has replaces its value, and `hasattr` is key presence. -/

/-- the skip list of line 108 — note the literal entry `update_at`, so the
    real attribute `updated_at` is NOT protected. -/
def protectedKeys : List String :=
  ["id", "user_id", "city_id", "created_at", "update_at"]

/-- Python `setattr(obj, k, v)` on an attribute the object has: replace the
    value stored under `k`. -/
def setField (obj : List (String × JVal)) (k : String) (v : JVal) :
    List (String × JVal) :=
  obj.map (fun kv => if kv.1 = k then (k, v) else kv)

/-- one iteration of the loop of lines 107-110: skip the protected keys,
    and set the attribute only when the object has it (`hasattr`). -/
def editStep (obj : List (String × JVal)) (kv : String × JVal) :
    List (String × JVal) :=
  if kv.1 ∈ protectedKeys then obj
  else if (obj.lookup kv.1).isSome then setField obj kv.1 kv.2
  else obj

/-- the whole loop of lines 107-110 over every key of the request body. -/
def editPlaceFields (place body : List (String × JVal)) :
    List (String × JVal) :=
  body.foldl editStep place

/-- a stored place object for the update counterexample: besides the usual
    attributes it carries an attribute literally named `update_at` (any
    attribute set at creation time is possible, since `Place(**fields)`
    accepts arbitrary fields). -/
def stalePlaceObj : List (String × JVal) :=
  [("id", .jstr "P9"), ("user_id", .jstr "U1"), ("city_id", .jstr "C1"),
   ("created_at", .jstr "t0"), ("updated_at", .jstr "t0"),
   ("name", .jstr "old"), ("update_at", .jnum 0)]

example : filterPlaces scenarioStg "db" [] [] [] = {p1, p2, p3} := by decide

example : filterPlaces scenarioStg "db" ["S1"] [] [] = {p1, p2} := by decide

example : filterPlaces scenarioStg "db" ["S1"] [] ["A1", "A2"] = {p1} := by decide

example : filterPlaces scenarioStg "db" [] ["C2"] [] = {p3} := by decide

example : filterPlaces scenarioStg "db" [] [] ["A1"] = {p1, p2} := by decide

example : filterPlaces scenarioStg "db" ["UNKNOWN"] [] [] = ∅ := by decide

/- Membership lemmas for the loop-shaped definitions. -/

/-- membership in a left fold that unions `f x` for each list element. -/
theorem mem_foldl_union {α β : Type} [DecidableEq β] (f : α → Finset β)
    (l : List α) (init : Finset β) (p : β) :
    p ∈ l.foldl (fun acc x => acc ∪ f x) init ↔ p ∈ init ∨ ∃ x ∈ l, p ∈ f x := by
  induction l generalizing init with
  | nil => simp
  | cons a t ih =>
      simp only [List.foldl_cons, ih, Finset.mem_union, List.mem_cons]
      constructor
      · rintro ((h | h) | ⟨x, hx, hfx⟩)
        · exact Or.inl h
        · exact Or.inr ⟨a, Or.inl rfl, h⟩
        · exact Or.inr ⟨x, Or.inr hx, hfx⟩
      · rintro (h | ⟨x, (rfl | hx), hfx⟩)
        · exact Or.inl (Or.inl h)
        · exact Or.inl (Or.inr hfx)
        · exact Or.inr ⟨x, hx, hfx⟩

/-- membership in the contribution of one requested state identifier. -/
theorem mem_statePlaces (stg : Storage) (sid : String) (p : Place) :
    p ∈ statePlaces stg sid ↔
      ∃ st, getState stg sid = some st ∧
        ∃ c ∈ citiesOfState stg st, p ∈ placesOfCity stg c := by
  unfold statePlaces
  cases h : getState stg sid with
  | none => simp [h]
  | some st => simp [h, mem_foldl_union, List.mem_toFinset]

/-- membership in the contribution of one requested city identifier. -/
theorem mem_cityPlaces (stg : Storage) (cid : String) (p : Place) :
    p ∈ cityPlaces stg cid ↔
      ∃ c, getCity stg cid = some c ∧ p ∈ placesOfCity stg c := by
  unfold cityPlaces
  cases h : getCity stg cid with
  | none => simp [h]
  | some c => simp [h, List.mem_toFinset]

/-- membership in the candidate set of lines 129-142. -/
theorem mem_candidatePlaces (stg : Storage) (states cities : List String) (p : Place) :
    p ∈ candidatePlaces stg states cities ↔
      ((states = [] ∧ cities = []) ∧ p ∈ stg.places) ∨
      (∃ sid ∈ states, p ∈ statePlaces stg sid) ∨
      (∃ cid ∈ cities, p ∈ cityPlaces stg cid) := by
  unfold candidatePlaces
  rw [mem_foldl_union, mem_foldl_union]
  by_cases h : states = [] ∧ cities = []
  · simp [h, List.mem_toFinset]
  · rw [if_neg h]
    simp [h, or_assoc]

/-- a candidate is always one of the stored places. -/
theorem candidatePlaces_subset (stg : Storage) (states cities : List String) :
    candidatePlaces stg states cities ⊆ stg.places.toFinset := by
  intro p hp
  rw [mem_candidatePlaces] at hp
  rw [List.mem_toFinset]
  rcases hp with ⟨_, hp⟩ | ⟨sid, _, hp⟩ | ⟨cid, _, hp⟩
  · exact hp
  · rw [mem_statePlaces] at hp
    obtain ⟨st, _, c, _, hp⟩ := hp
    exact (List.mem_filter.mp hp).1
  · rw [mem_cityPlaces] at hp
    obtain ⟨c, _, hp⟩ := hp
    exact (List.mem_filter.mp hp).1

/-- membership in the final result of `filter_places`. -/
theorem mem_filterPlaces (stg : Storage) (storage_t : String)
    (states cities amenities : List String) (p : Place) :
    p ∈ filterPlaces stg storage_t states cities amenities ↔
      p ∈ candidatePlaces stg states cities ∧
        (amenities = [] ∨
          normalizedAmenities stg amenities ⊆ placeAmenityIds storage_t p) := by
  unfold filterPlaces
  by_cases h : amenities = []
  · simp [h]
  · rw [if_neg h]
    simp only [Finset.mem_sdiff, Finset.mem_filter, not_and, not_not, h, false_or]
    tauto

/-- requesting one more amenity can only enlarge the normalized set. -/
theorem normalizedAmenities_mono (stg : Storage) (a : String) (amenities : List String) :
    normalizedAmenities stg amenities ⊆ normalizedAmenities stg (a :: amenities) := by
  intro x hx
  simp only [normalizedAmenities, Finset.mem_filter, List.mem_toFinset, List.mem_cons] at hx ⊢
  exact ⟨Or.inr hx.1, hx.2⟩

/-- C1: for every filter request with empty state and city lists but a
    non-empty amenity list, the result is exactly the set of stored Places
    whose amenity-identifier set contains every normalized
    (resolved-to-existing) requested amenity identifier. -/
theorem filter_amenities_only (stg : Storage) (storage_t : String)
    (amenities : List String) (h : amenities ≠ []) :
    filterPlaces stg storage_t [] [] amenities =
      stg.places.toFinset.filter
        (fun p => normalizedAmenities stg amenities ⊆ placeAmenityIds storage_t p) := by
  ext p
  rw [mem_filterPlaces, mem_candidatePlaces, Finset.mem_filter, List.mem_toFinset]
  simp [h]

theorem filter_amenities_only_witness :
    filterPlaces scenarioStg "db" [] [] ["A1"] =
      scenarioStg.places.toFinset.filter
        (fun p => normalizedAmenities scenarioStg ["A1"] ⊆ placeAmenityIds "db" p) :=
  filter_amenities_only scenarioStg "db" ["A1"] (by decide)

/-- C2 counterexample: on the spec scenario storage, the request with only
    amenity A1 does NOT return all three places; the amenity filter is not
    skipped when both location lists are empty. -/
theorem scenario_amenity_request_counterexample :
    filterPlaces scenarioStg "db" [] [] ["A1"] ≠ {p1, p2, p3} := by decide

/-- C2 amended: on the scenario storage of the spec, the request with only
    amenity A1 and no location lists returns exactly the places P1 and P2:
    the empty location lists only skip the location filter (all Places become
    candidates); the amenity filter is still applied and excludes P3. -/
theorem scenario_amenity_request :
    filterPlaces scenarioStg "db" [] [] ["A1"] = {p1, p2} := by decide

/-- C4: a filter request with empty (or absent, since absent fields default
    to the empty list on lines 126-128) state, city and amenity lists returns
    the full set of stored Places. -/
theorem filter_no_criteria (stg : Storage) (storage_t : String) :
    filterPlaces stg storage_t [] [] [] = stg.places.toFinset := by
  simp [filterPlaces, candidatePlaces]

/-- C5: when at least one location list is non-empty, every Place in the
    result belongs to a City of a State named in the state list, or directly
    to a City named in the city list; and the candidate set is duplicate-free
    even when a Place is reachable both ways. -/
theorem filter_location_membership (stg : Storage) (storage_t : String)
    (states cities amenities : List String) (h : states ≠ [] ∨ cities ≠ []) :
    (∀ p ∈ filterPlaces stg storage_t states cities amenities,
        (∃ sid ∈ states, ∃ st, getState stg sid = some st ∧
            ∃ c ∈ citiesOfState stg st, p ∈ placesOfCity stg c) ∨
        (∃ cid ∈ cities, ∃ c, getCity stg cid = some c ∧
            p ∈ placesOfCity stg c)) ∧
      (candidatePlaces stg states cities).val.Nodup := by
  refine ⟨?_, (candidatePlaces stg states cities).nodup⟩
  intro p hp
  rw [mem_filterPlaces] at hp
  have hc := hp.1
  rw [mem_candidatePlaces] at hc
  rcases hc with ⟨⟨hs, hcc⟩, _⟩ | ⟨sid, hsid, hp2⟩ | ⟨cid, hcid, hp2⟩
  · rcases h with h | h
    · exact absurd hs h
    · exact absurd hcc h
  · rw [mem_statePlaces] at hp2
    obtain ⟨st, hst, c, hc2, hpc⟩ := hp2
    exact Or.inl ⟨sid, hsid, st, hst, c, hc2, hpc⟩
  · rw [mem_cityPlaces] at hp2
    obtain ⟨c, hc2, hpc⟩ := hp2
    exact Or.inr ⟨cid, hcid, c, hc2, hpc⟩

theorem filter_location_membership_witness :
    (∀ p ∈ filterPlaces scenarioStg "db" ["S1"] [] [],
        (∃ sid ∈ ["S1"], ∃ st, getState scenarioStg sid = some st ∧
            ∃ c ∈ citiesOfState scenarioStg st, p ∈ placesOfCity scenarioStg c) ∨
        (∃ cid ∈ ([] : List String), ∃ c, getCity scenarioStg cid = some c ∧
            p ∈ placesOfCity scenarioStg c)) ∧
      (candidatePlaces scenarioStg ["S1"] []).val.Nodup :=
  filter_location_membership scenarioStg "db" ["S1"] [] [] (Or.inl (by decide))

/-- C7: adding one amenity identifier to the request can only shrink the
    result set, whatever the other request fields and the storage are. -/
theorem filter_amenity_monotone (stg : Storage) (storage_t : String)
    (states cities amenities : List String) (a : String) :
    filterPlaces stg storage_t states cities (a :: amenities) ⊆
      filterPlaces stg storage_t states cities amenities := by
  intro p hp
  rw [mem_filterPlaces] at hp ⊢
  rcases hp with ⟨hc, hp⟩
  refine ⟨hc, ?_⟩
  rcases hp with he | hsub
  · exact absurd he (List.cons_ne_nil a amenities)
  · exact Or.inr (fun x hx => hsub (normalizedAmenities_mono stg a amenities hx))

/-- dropping unresolvable amenity identifiers does not change the normalized
    requested amenity set. -/
theorem normalized_resolvable (stg : Storage) (amenities : List String) :
    normalizedAmenities stg (resolvableAmenityIds stg amenities) =
      normalizedAmenities stg amenities := by
  ext x
  simp only [normalizedAmenities, resolvableAmenityIds, Finset.mem_filter,
    List.mem_toFinset, List.mem_filter]
  tauto

/-- dropping unresolvable location identifiers keeps the candidate set,
    as long as it does not turn a non-empty location request into an empty
    one (which would re-enable the all-places branch of line 130). -/
theorem candidate_resolvable (stg : Storage) (states cities : List String)
    (h : (states = [] ∧ cities = []) ∨
      resolvableStateIds stg states ≠ [] ∨ resolvableCityIds stg cities ≠ []) :
    candidatePlaces stg (resolvableStateIds stg states)
        (resolvableCityIds stg cities) =
      candidatePlaces stg states cities := by
  ext p
  rw [mem_candidatePlaces, mem_candidatePlaces]
  have hstates : (∃ sid ∈ resolvableStateIds stg states, p ∈ statePlaces stg sid) ↔
      (∃ sid ∈ states, p ∈ statePlaces stg sid) := by
    constructor
    · rintro ⟨sid, hmem, hp2⟩
      exact ⟨sid, (List.mem_filter.mp hmem).1, hp2⟩
    · rintro ⟨sid, hmem, hp2⟩
      refine ⟨sid, List.mem_filter.mpr ⟨hmem, ?_⟩, hp2⟩
      rw [mem_statePlaces] at hp2
      obtain ⟨st, hst, _⟩ := hp2
      simp [hst]
  have hcities : (∃ cid ∈ resolvableCityIds stg cities, p ∈ cityPlaces stg cid) ↔
      (∃ cid ∈ cities, p ∈ cityPlaces stg cid) := by
    constructor
    · rintro ⟨cid, hmem, hp2⟩
      exact ⟨cid, (List.mem_filter.mp hmem).1, hp2⟩
    · rintro ⟨cid, hmem, hp2⟩
      refine ⟨cid, List.mem_filter.mpr ⟨hmem, ?_⟩, hp2⟩
      rw [mem_cityPlaces] at hp2
      obtain ⟨c, hc2, _⟩ := hp2
      simp [hc2]
  have hcond : (resolvableStateIds stg states = [] ∧
      resolvableCityIds stg cities = []) ↔ (states = [] ∧ cities = []) := by
    rcases h with ⟨h1, h2⟩ | h | h
    · subst h1; subst h2
      simp [resolvableStateIds, resolvableCityIds]
    · constructor
      · intro hh; exact absurd hh.1 h
      · rintro ⟨h1, _⟩
        exact absurd (by simp [resolvableStateIds, h1]) h
    · constructor
      · intro hh; exact absurd hh.2 h
      · rintro ⟨_, h2⟩
        exact absurd (by simp [resolvableCityIds, h2]) h
  rw [hstates, hcities, hcond]

/-- C6 counterexample: on the scenario storage, the request naming only the
    unresolvable state UNKNOWN returns no Place, while the same request with
    its unresolvable identifiers removed returns every Place — so the result
    is not always the result of the stripped request. -/
theorem unresolvable_state_counterexample :
    filterPlaces scenarioStg "db" ["UNKNOWN"] [] [] ≠
      filterPlaces scenarioStg "db" (resolvableStateIds scenarioStg ["UNKNOWN"])
        (resolvableCityIds scenarioStg []) (resolvableAmenityIds scenarioStg []) := by
  decide

/-- C6 amended: unresolvable identifiers are silently skipped — they never
    cause an error, contribute no candidates and no amenity constraint, and
    the result equals the result of the request with all unresolvable
    identifiers removed, provided both location lists were already empty or
    at least one location identifier resolves (otherwise stripping the
    location lists re-enables the all-places branch of line 130 while the
    original request returns no candidates). -/
theorem filter_resolvable_only (stg : Storage) (storage_t : String)
    (states cities amenities : List String)
    (h : (states = [] ∧ cities = []) ∨
      resolvableStateIds stg states ≠ [] ∨ resolvableCityIds stg cities ≠ []) :
    filterPlaces stg storage_t states cities amenities =
      filterPlaces stg storage_t (resolvableStateIds stg states)
        (resolvableCityIds stg cities) (resolvableAmenityIds stg amenities) := by
  ext p
  rw [mem_filterPlaces, mem_filterPlaces, candidate_resolvable stg states cities h]
  have hnorm : normalizedAmenities stg (resolvableAmenityIds stg amenities) =
      normalizedAmenities stg amenities := normalized_resolvable stg amenities
  constructor
  · rintro ⟨hc, hp⟩
    refine ⟨hc, ?_⟩
    rcases hp with he | hsub
    · exact Or.inl (by simp [resolvableAmenityIds, he])
    · exact Or.inr (by rw [hnorm]; exact hsub)
  · rintro ⟨hc, hp⟩
    refine ⟨hc, ?_⟩
    by_cases hA : amenities = []
    · exact Or.inl hA
    · rcases hp with he | hsub
      · refine Or.inr ?_
        have hempty : normalizedAmenities stg amenities = ∅ := by
          rw [← hnorm, he]
          simp [normalizedAmenities]
        rw [hempty]
        exact Finset.empty_subset _
      · exact Or.inr (by rw [← hnorm]; exact hsub)

theorem filter_resolvable_only_witness :
    filterPlaces scenarioStg "db" ["S1", "UNKNOWN"] [] ["A1", "BOGUS"] =
      filterPlaces scenarioStg "db"
        (resolvableStateIds scenarioStg ["S1", "UNKNOWN"])
        (resolvableCityIds scenarioStg [])
        (resolvableAmenityIds scenarioStg ["A1", "BOGUS"]) :=
  filter_resolvable_only scenarioStg "db" ["S1", "UNKNOWN"] [] ["A1", "BOGUS"]
    (Or.inr (Or.inl (by decide)))

/-- C8: when every stored Place's object-graph amenity collection denotes
    the same identifier set as its flat amenity-identifier list, the filter
    returns the same result in db mode and in any other storage mode. -/
theorem filter_storage_mode_equiv (stg : Storage) (storage_t : String)
    (states cities amenities : List String) (ht : storage_t ≠ "db")
    (h : ∀ p ∈ stg.places,
        (p.amenities.map Amenity.id).toFinset = p.amenity_ids.toFinset) :
    filterPlaces stg "db" states cities amenities =
      filterPlaces stg storage_t states cities amenities := by
  ext p
  rw [mem_filterPlaces, mem_filterPlaces]
  by_cases hc : p ∈ candidatePlaces stg states cities
  · have hp : p ∈ stg.places :=
      List.mem_toFinset.mp (candidatePlaces_subset stg states cities hc)
    have hids : placeAmenityIds "db" p = placeAmenityIds storage_t p := by
      simp [placeAmenityIds, if_neg ht, h p hp]
    rw [hids]
  · simp [hc]

theorem filter_storage_mode_equiv_witness :
    filterPlaces scenarioStg "db" ["S1"] [] ["A1"] =
      filterPlaces scenarioStg "fs" ["S1"] [] ["A1"] :=
  filter_storage_mode_equiv scenarioStg "fs" ["S1"] [] ["A1"] (by decide) (by decide)

/-- C3 code-bug evidence: running the filter with a non-empty amenity list
    on the scenario storage changes the stored entities — the statement
    `del place.amenities` on line 158 discards each candidate Place's amenity
    relationship, so the filter is not a pure query. -/
theorem filter_mutates_storage :
    filterPlacesStorageAfter scenarioStg "db" [] [] ["A1"] ≠ scenarioStg := by
  decide

/-- C9 counterexample: a perfectly valid JSON body whose `states` key holds
    a number makes the filter raise a TypeError instead of completing — the
    filter can fail on JSON bodies, not only on non-JSON ones. -/
theorem filter_dyn_nonlist_counterexample :
    filterPlacesDyn scenarioStg "db" (some (.jobj [("states", .jnum 0)])) =
      .error "TypeError: object is not iterable" := rfl

theorem isStrArray_elim {v : JVal} (h : isStrArray v = true) :
    ∃ xs, v = .jarr xs ∧ ∀ x ∈ xs, ∃ s, x = .jstr s := by
  cases v with
  | jarr xs =>
      refine ⟨xs, rfl, ?_⟩
      rw [isStrArray, List.all_eq_true] at h
      intro x hx
      have := h x hx
      cases x <;> simp_all
  | jnull => simp [isStrArray] at h
  | jbool b => simp [isStrArray] at h
  | jnum n => simp [isStrArray] at h
  | jstr s => simp [isStrArray] at h
  | jobj kvs => simp [isStrArray] at h

theorem dynLocationFilter_ok (stg : Storage) (fields : JVal) (ss cs : List JVal) :
    ∃ pl, dynLocationFilter stg fields (.jarr ss) (.jarr cs) = .ok pl :=
  ⟨_, rfl⟩

theorem dynAmenityFilter_ok_of_strings (stg : Storage) (storage_t : String)
    (pl : Finset Place) (al : List JVal) (hall : ∀ x ∈ al, ∃ s, x = .jstr s) :
    ∃ r, dynAmenityFilter stg storage_t pl (.jarr al) = .ok r := by
  cases al with
  | nil => exact ⟨pl, rfl⟩
  | cons x t =>
      have hh : (x :: t).all pyHashable = true := by
        rw [List.all_eq_true]
        intro y hy
        obtain ⟨s, rfl⟩ := hall y hy
        rfl
      unfold dynAmenityFilter
      rw [show isEmptyList (.jarr (x :: t)) = false from rfl]
      simp only [Bool.false_eq_true, if_false, pyIter, hh, if_true]
      exact ⟨_, rfl⟩

/-- C9 amended: a non-JSON body (or a literal null body) is answered with
    the "Not a JSON" client error before the filter runs; and for every JSON
    object body whose `states`, `cities` and `amenities` values — when
    present — are arrays of strings, the place-search filter runs to
    completion and returns a (possibly empty) result without raising.  (For
    other value types the filter can raise, see the counterexample.) -/
theorem filter_dyn_total (stg : Storage) (storage_t : String)
    (kvs : List (String × JVal))
    (hs : isStrArray ((kvs.lookup "states").getD (.jarr [])) = true)
    (hc : isStrArray ((kvs.lookup "cities").getD (.jarr [])) = true)
    (ha : isStrArray ((kvs.lookup "amenities").getD (.jarr [])) = true) :
    (∃ r, filterPlacesDyn stg storage_t (some (.jobj kvs)) = .ok (.results r)) ∧
      filterPlacesDyn stg storage_t none = .ok .notAJson := by
  refine ⟨?_, rfl⟩
  obtain ⟨ss, hss, _⟩ := isStrArray_elim hs
  obtain ⟨cs, hcs, _⟩ := isStrArray_elim hc
  obtain ⟨al, hal, hall⟩ := isStrArray_elim ha
  have hstep : filterPlacesDyn stg storage_t (some (.jobj kvs)) =
      (match dynLocationFilter stg (.jobj kvs)
          ((kvs.lookup "states").getD (.jarr []))
          ((kvs.lookup "cities").getD (.jarr [])) with
       | .error e => .error e
       | .ok places2 =>
         match dynAmenityFilter stg storage_t places2
             ((kvs.lookup "amenities").getD (.jarr [])) with
         | .error e => .error e
         | .ok res => .ok (.results res)) := rfl
  obtain ⟨pl, hpl⟩ := dynLocationFilter_ok stg (.jobj kvs) ss cs
  obtain ⟨r, hr⟩ := dynAmenityFilter_ok_of_strings stg storage_t pl al hall
  refine ⟨r, ?_⟩
  rw [hstep, hss, hcs, hal]
  simp only [hpl, hr]

theorem filter_dyn_total_witness :
    (∃ r, filterPlacesDyn scenarioStg "db"
        (some (.jobj [("states", .jarr [.jstr "S1"]),
          ("amenities", .jarr [.jstr "A1"])])) = .ok (.results r)) ∧
      filterPlacesDyn scenarioStg "db" none = .ok .notAJson :=
  filter_dyn_total scenarioStg "db"
    [("states", .jarr [.jstr "S1"]), ("amenities", .jarr [.jstr "A1"])]
    (by decide) (by decide) (by decide)

theorem lookup_cons_self (a : String) (b : JVal) (t : List (String × JVal)) :
    (((a, b) :: t).lookup a) = some b := by
  show (match a == a with | true => some b | false => t.lookup a) = some b
  rw [beq_self_eq_true]

theorem lookup_cons_ne (a k : String) (b : JVal) (t : List (String × JVal))
    (h : k ≠ a) : (((a, b) :: t).lookup k) = t.lookup k := by
  show (match k == a with | true => some b | false => t.lookup k) = t.lookup k
  rw [beq_eq_false_iff_ne.mpr h]

theorem lookup_setField_ne (obj : List (String × JVal)) (k k0 : String) (v : JVal)
    (h : k ≠ k0) : (setField obj k v).lookup k0 = obj.lookup k0 := by
  induction obj with
  | nil => rfl
  | cons p t ih =>
      obtain ⟨a, b⟩ := p
      show ((if a = k then (k, v) else (a, b)) :: setField t k v).lookup k0 =
        ((a, b) :: t).lookup k0
      by_cases hp : a = k
      · subst hp
        rw [if_pos rfl]
        rw [lookup_cons_ne a k0 v _ (Ne.symm h), lookup_cons_ne a k0 b t (Ne.symm h)]
        exact ih
      · rw [if_neg hp]
        by_cases ha : k0 = a
        · subst ha
          rw [lookup_cons_self, lookup_cons_self]
        · rw [lookup_cons_ne a k0 b _ ha, lookup_cons_ne a k0 b t ha]
          exact ih

theorem lookup_setField_self (obj : List (String × JVal)) (k : String) (v : JVal)
    (h : (obj.lookup k).isSome = true) : (setField obj k v).lookup k = some v := by
  induction obj with
  | nil => simp [List.lookup] at h
  | cons p t ih =>
      obtain ⟨a, b⟩ := p
      show ((if a = k then (k, v) else (a, b)) :: setField t k v).lookup k = some v
      by_cases hp : a = k
      · subst hp
        rw [if_pos rfl, lookup_cons_self]
      · rw [if_neg hp, lookup_cons_ne a k b _ (Ne.symm hp)]
        rw [lookup_cons_ne a k b t (Ne.symm hp)] at h
        exact ih h

theorem setField_keys (obj : List (String × JVal)) (k : String) (v : JVal) :
    (setField obj k v).map Prod.fst = obj.map Prod.fst := by
  induction obj with
  | nil => rfl
  | cons p t ih =>
      obtain ⟨a, b⟩ := p
      by_cases hp : a = k
      · subst hp
        simp [setField] at ih ⊢
        exact ih
      · simp [setField, hp] at ih ⊢
        exact ih

theorem lookup_isSome_iff (l : List (String × JVal)) (k : String) :
    (l.lookup k).isSome = true ↔ k ∈ l.map Prod.fst := by
  induction l with
  | nil => simp [List.lookup]
  | cons p t ih =>
      obtain ⟨a, b⟩ := p
      by_cases hp : k = a
      · subst hp
        rw [lookup_cons_self]
        simp
      · rw [lookup_cons_ne a k b t hp]
        simp only [List.map_cons, List.mem_cons, ih]
        constructor
        · exact Or.inr
        · rintro (h | h)
          · exact absurd h hp
          · exact h

theorem editStep_keys (obj : List (String × JVal)) (kv : String × JVal) :
    (editStep obj kv).map Prod.fst = obj.map Prod.fst := by
  unfold editStep
  split_ifs with h1 h2
  · rfl
  · exact setField_keys obj kv.1 kv.2
  · rfl

theorem lookup_editStep_ne (obj : List (String × JVal)) (kv : String × JVal)
    (k0 : String) (h : kv.1 ≠ k0) :
    (editStep obj kv).lookup k0 = obj.lookup k0 := by
  unfold editStep
  split_ifs with h1 h2
  · rfl
  · exact lookup_setField_ne obj kv.1 k0 kv.2 h
  · rfl

theorem lookup_editPlaceFields_notin (body : List (String × JVal)) :
    ∀ (place : List (String × JVal)) (k0 : String), k0 ∉ body.map Prod.fst →
      (editPlaceFields place body).lookup k0 = place.lookup k0 := by
  induction body with
  | nil => intro place k0 _; rfl
  | cons kv rest ih =>
      intro place k0 h
      simp only [List.map_cons, List.mem_cons] at h
      push_neg at h
      show (editPlaceFields (editStep place kv) rest).lookup k0 = _
      rw [ih _ _ h.2, lookup_editStep_ne place kv k0 (Ne.symm h.1)]

theorem lookup_editPlaceFields_protected (body : List (String × JVal)) :
    ∀ (place : List (String × JVal)) (k0 : String), k0 ∈ protectedKeys →
      (editPlaceFields place body).lookup k0 = place.lookup k0 := by
  induction body with
  | nil => intro place k0 _; rfl
  | cons kv rest ih =>
      intro place k0 hk
      show (editPlaceFields (editStep place kv) rest).lookup k0 = _
      rw [ih _ _ hk]
      by_cases hp : kv.1 ∈ protectedKeys
      · unfold editStep
        rw [if_pos hp]
      · exact lookup_editStep_ne place kv k0 (fun hh => hp (hh ▸ hk))

theorem lookup_editPlaceFields_of_mem (body : List (String × JVal)) :
    ∀ (place : List (String × JVal)) (k : String) (v : JVal),
      (body.map Prod.fst).Nodup → k ∉ protectedKeys →
      body.lookup k = some v → (place.lookup k).isSome = true →
      (editPlaceFields place body).lookup k = some v := by
  induction body with
  | nil => intro place k v _ _ hbv _; simp [List.lookup] at hbv
  | cons kv rest ih =>
      intro place k v hnd hk hbv hsome
      obtain ⟨a, b⟩ := kv
      simp only [List.map_cons, List.nodup_cons] at hnd
      by_cases hak : a = k
      · subst hak
        rw [lookup_cons_self] at hbv
        have hv : b = v := Option.some.inj hbv
        subst hv
        show (editPlaceFields (editStep place (a, b)) rest).lookup a = some b
        rw [lookup_editPlaceFields_notin rest _ _ hnd.1]
        unfold editStep
        rw [if_neg hk, if_pos hsome]
        exact lookup_setField_self place a b hsome
      · rw [lookup_cons_ne a k b rest (Ne.symm hak)] at hbv
        have hsome2 : ((editStep place (a, b)).lookup k).isSome = true := by
          rw [lookup_isSome_iff, editStep_keys, ← lookup_isSome_iff]
          exact hsome
        exact ih _ _ _ hnd.2 hk hbv hsome2

/-- C10 counterexample: the attribute `update_at` is held by the place and
    named in the body with value 1, it is none of id, user_id, city_id or
    created_at, and yet it is not overwritten — it keeps its old value 0,
    because the skip list of line 108 contains the literal `update_at`. -/
theorem edit_place_update_at_counterexample :
    (editPlaceFields stalePlaceObj [("update_at", JVal.jnum 1)]).lookup "update_at"
        = some (JVal.jnum 0) ∧
      JVal.jnum 0 ≠ JVal.jnum 1 := by
  refine ⟨rfl, ?_⟩
  intro h
  have h0 : (0 : Int) = 1 := JVal.jnum.inj h
  exact absurd h0 (by norm_num)

/-- C10 amended: after the update loop of a successful PUT, the attributes
    id, user_id, city_id, created_at — and also any attribute literally named
    `update_at`, an artifact of the skip-list typo on line 108 — are
    unchanged, while every other attribute the place already has and that is
    named in the request body (updated_at included) is overwritten with the
    body's value. -/
theorem edit_place_frame (place body : List (String × JVal))
    (hnd : (body.map Prod.fst).Nodup) :
    (∀ k ∈ protectedKeys, (editPlaceFields place body).lookup k = place.lookup k) ∧
    (∀ (k : String) (v : JVal), k ∉ protectedKeys → body.lookup k = some v →
        (place.lookup k).isSome = true →
        (editPlaceFields place body).lookup k = some v) :=
  ⟨fun k hk => lookup_editPlaceFields_protected body place k hk,
   fun k v hk hbv hsome =>
     lookup_editPlaceFields_of_mem body place k v hnd hk hbv hsome⟩

theorem edit_place_frame_witness :
    (∀ k ∈ protectedKeys,
        (editPlaceFields stalePlaceObj
            [("name", JVal.jstr "new"), ("updated_at", JVal.jstr "t1")]).lookup k =
          stalePlaceObj.lookup k) ∧
    (∀ (k : String) (v : JVal), k ∉ protectedKeys →
        [("name", JVal.jstr "new"), ("updated_at", JVal.jstr "t1")].lookup k = some v →
        (stalePlaceObj.lookup k).isSome = true →
        (editPlaceFields stalePlaceObj
            [("name", JVal.jstr "new"), ("updated_at", JVal.jstr "t1")]).lookup k =
          some v) :=
  edit_place_frame stalePlaceObj
    [("name", JVal.jstr "new"), ("updated_at", JVal.jstr "t1")] (by simp)

end HBnB
